import Mathlib

/-!
# Kernel (priv/javascript/lib/kernel.js)

A shallow embedding of the `Kernel` object of the ElixirScript JavaScript
runtime, and theorems about its type predicates, list accessors, arithmetic
helpers, `apply`, `__in__` and `match__qmark__`.

JavaScript values are a tagged tree; an evaluation that can raise returns
`Except JSError JSVal`.  Collaborators that `kernel.js` imports but that are
defined in other modules (`Patterns.match_no_throw`, the bodies of function
values, the conversion of objects to primitives) are parameters.
-/

namespace ElixirScript

/-! ## Numbers -/

/-- A JavaScript number (an IEEE 754 binary64 value).  Every finite double is a
rational; `fin 0` is `+0` and `negZero` is `-0`.  The type is wider than the
set of doubles: statements quantified over `JSNum` cover every double. -/
inductive JSNum where
  | nan
  | posInf
  | negInf
  | negZero
  | fin (q : ℚ)
  deriving DecidableEq

namespace JSNum

/-- The sign bit (`true` for negative numbers and `-0`). -/
def isNeg : JSNum → Bool
  | nan => false
  | posInf => false
  | negInf => true
  | negZero => true
  | fin q => decide (q < 0)

/-- Is the number `+0` or `-0`? -/
def isZero : JSNum → Bool
  | negZero => true
  | fin q => decide (q = 0)
  | _ => false

/-- Is the number neither `NaN` nor an infinity? -/
def isFinite : JSNum → Bool
  | negZero => true
  | fin _ => true
  | _ => false

/-- The mathematical value of a finite number (`0` for the others). -/
def toRat : JSNum → ℚ
  | fin q => q
  | _ => 0

/-- Strict equality of two numbers (`a === b`): `NaN` equals nothing and the
two zeros are equal. -/
def strictEq : JSNum → JSNum → Bool
  | nan, _ => false
  | _, nan => false
  | posInf, posInf => true
  | negInf, negInf => true
  | posInf, _ => false
  | negInf, _ => false
  | _, posInf => false
  | _, negInf => false
  | a, b => decide (a.toRat = b.toRat)

/-- Truncation of a rational toward zero. -/
def truncRat (q : ℚ) : ℤ :=
  if 0 ≤ q then ⌊q⌋ else ⌈q⌉

/-- The abstract operation ToInt32: `NaN`, the infinities and the zeros give
`0`; a finite number is truncated toward zero and wrapped modulo `2^32` into
`[-2^31, 2^31)`. -/
def toInt32 : JSNum → ℤ
  | fin q =>
    let m := truncRat q % 4294967296
    if 2147483648 ≤ m then m - 4294967296 else m
  | _ => 0

/-- A zero with the given sign bit. -/
def signedZero (neg : Bool) : JSNum :=
  if neg then negZero else fin 0

/-- An infinity with the given sign bit. -/
def signedInf (neg : Bool) : JSNum :=
  if neg then negInf else posInf

/-- The nearest integer to a rational, ties going to the even neighbour. -/
def roundHalfEven (q : ℚ) : ℤ :=
  let f := ⌊q⌋
  if q - f < 1 / 2 then f
  else if 1 / 2 < q - f then f + 1
  else if f % 2 = 0 then f else f + 1

/-- Rounding of an exact rational result to binary64 (round to nearest, ties
to even): 53 significant bits, least exponent `-1074`, overflow to an infinity
from `2^1024` on, underflow to a zero of the same sign. -/
def roundDouble (q : ℚ) : JSNum :=
  if q = 0 then fin 0
  else
    let p : ℤ := max (Int.log 2 |q| - 52) (-1074)
    let m : ℤ := roundHalfEven (|q| / (2 : ℚ) ^ p)
    let r : ℚ := (m : ℚ) * (2 : ℚ) ^ p
    if (2 : ℚ) ^ (1024 : ℤ) ≤ r then signedInf (decide (q < 0))
    else if m = 0 then signedZero (decide (q < 0))
    else fin (if q < 0 then -r else r)

/-- The `/` operator on numbers (IEEE 754 division). -/
def div (a b : JSNum) : JSNum :=
  if a = nan ∨ b = nan then nan
  else if a.isFinite then
    if b.isFinite then
      if b.isZero then (if a.isZero then nan else signedInf (a.isNeg != b.isNeg))
      else if a.isZero then signedZero (a.isNeg != b.isNeg)
      else roundDouble (a.toRat / b.toRat)
    else signedZero (a.isNeg != b.isNeg)
  else if b.isFinite then signedInf (a.isNeg != b.isNeg)
  else nan

/-- The `%` operator on numbers: the remainder of the truncating division,
with the sign of the dividend; the result of `%` is exact. -/
def rem (a b : JSNum) : JSNum :=
  if a = nan ∨ b = nan then nan
  else if !a.isFinite then nan
  else if b.isZero then nan
  else if !b.isFinite then a
  else if a.isZero then a
  else
    let r : ℚ := a.toRat - b.toRat * (truncRat (a.toRat / b.toRat) : ℚ)
    if r = 0 then signedZero a.isNeg else fin r

end JSNum

/-! ## Values -/

/-- A property key: a string or a symbol. -/
inductive PropKey where
  | str (s : String)
  | sym (id : Nat)
  deriving DecidableEq

/-- A JavaScript value (ECMAScript 2015).  Atoms are symbols, lists are
instances of `Array`, tuples of `Tuple`, bit strings of
`SpecialForms.bitstring`; `Tuple` and `SpecialForms.bitstring` are classes of
other modules, taken to be ordinary classes deriving from `Object` and
distinct from `Array`, `String`, `Boolean` and `Function`.  The property list
of an object is what a property read sees (own and inherited members).
`fn id` is a function object of the program, `functionPrototypeApply` is the
built-in function object `Function.prototype.apply`. -/
inductive JSVal where
  | undefined
  | null
  | bool (b : Bool)
  | num (n : JSNum)
  | str (s : String)
  | sym (id : Nat)
  | array (xs : List JSVal)
  | tuple (xs : List JSVal)
  | bitstring (bytes : List Nat)
  | strObj (s : String)
  | boolObj (b : Bool)
  | numObj (n : JSNum)
  | fn (id : Nat)
  | functionPrototypeApply
  | obj (props : List (PropKey × JSVal))
  | bare (props : List (PropKey × JSVal))

/-- What a JavaScript evaluation raises. -/
inductive JSError where
  | typeError (msg : String)
  | rangeError (msg : String)
  | error (msg : String)
  deriving DecidableEq

/-- The parts of the host environment that `kernel.js` relies on without
fixing: the numeric value of a string, the conversion of an object to a number
(its `valueOf`/`toString`), the conversion of a value that is neither a string
nor a symbol to a property key, property reads on values other than plain
objects (the members of a function among them), the elements of an array-like
object that is not an `Array`, the bodies of the function values `fn id`
(called with a `this` value and an argument list), and the depth of nested
calls after which the engine raises a `RangeError`. -/
structure Host where
  stringToNumber : String → JSNum
  objectToNumber : JSVal → Except JSError JSNum
  toPropertyKey : JSVal → Except JSError PropKey
  getMember : JSVal → PropKey → Except JSError JSVal
  listFromArrayLike : JSVal → Except JSError (List JSVal)
  call : Nat → JSVal → List JSVal → Except JSError JSVal
  stackDepth : Nat

/-- The `typeof` operator. -/
def typeOf : JSVal → String
  | .undefined => "undefined"
  | .null => "object"
  | .bool _ => "boolean"
  | .num _ => "number"
  | .str _ => "string"
  | .sym _ => "symbol"
  | .fn _ => "function"
  | .functionPrototypeApply => "function"
  | _ => "object"

/-- Reading `x instanceof Array`. -/
def instanceOfArray : JSVal → Bool
  | .array _ => true
  | _ => false

/-- Reading `x instanceof Tuple`. -/
def instanceOfTuple : JSVal → Bool
  | .tuple _ => true
  | _ => false

/-- Reading `x instanceof SpecialForms.bitstring`. -/
def instanceOfBitstring : JSVal → Bool
  | .bitstring _ => true
  | _ => false

/-- Reading `x instanceof String`. -/
def instanceOfString : JSVal → Bool
  | .strObj _ => true
  | _ => false

/-- Reading `x instanceof Boolean`. -/
def instanceOfBoolean : JSVal → Bool
  | .boolObj _ => true
  | _ => false

/-- Reading `x instanceof Function`. -/
def instanceOfFunction : JSVal → Bool
  | .fn _ => true
  | .functionPrototypeApply => true
  | _ => false

/-- Reading `x instanceof Object`: every object whose prototype chain reaches
`Object.prototype`, so neither a primitive nor an object without prototype. -/
def instanceOfObject : JSVal → Bool
  | .array _ => true
  | .tuple _ => true
  | .bitstring _ => true
  | .strObj _ => true
  | .boolObj _ => true
  | .numObj _ => true
  | .fn _ => true
  | .functionPrototypeApply => true
  | .obj _ => true
  | _ => false

/-- The abstract operation ToBoolean (truthiness). -/
def toBoolean : JSVal → Bool
  | .undefined => false
  | .null => false
  | .bool b => b
  | .num n => !(n.isZero || n == JSNum.nan)
  | .str s => !(s == "")
  | _ => true

/-- The abstract operation ToNumber, which the unary `+` applies: symbols
raise a `TypeError`, objects go through the host. -/
def toNumber (h : Host) : JSVal → Except JSError JSNum
  | .undefined => pure JSNum.nan
  | .null => pure (JSNum.fin 0)
  | .bool b => pure (JSNum.fin (if b then 1 else 0))
  | .num n => pure n
  | .str s => pure (h.stringToNumber s)
  | .sym _ => throw (JSError.typeError "Cannot convert a Symbol value to a number")
  | v => h.objectToNumber v

/-- The expression `x|0`: ToInt32 of ToNumber of `x`. -/
def bitOrZero (h : Host) (x : JSVal) : Except JSError JSNum := do
  let n ← toNumber h x
  pure (JSNum.fin (n.toInt32 : ℚ))

/-- The comparison `x === n` for a right operand that is a number (the only
form of `===` between values in `kernel.js`): values of another type are
never equal to a number. -/
def strictEqualsNum : JSVal → JSNum → Bool
  | .num m, n => m.strictEq n
  | _, _ => false

/-- The comparison `x == null`: true of `null` and `undefined` only. -/
def looseEqualsNull : JSVal → Bool
  | .undefined => true
  | .null => true
  | _ => false

/-- The abstract operation ToPropertyKey. -/
def toPropertyKey (h : Host) : JSVal → Except JSError PropKey
  | .str s => pure (PropKey.str s)
  | .sym i => pure (PropKey.sym i)
  | v => h.toPropertyKey v

/-- The property read `base[key]`: a `TypeError` on `null` and `undefined`,
a lookup in the property list of an object (`undefined` when the key is
missing), the host for the other values. -/
def getV (h : Host) (base key : JSVal) : Except JSError JSVal :=
  match base with
  | .undefined => throw (JSError.typeError "Cannot read property of undefined")
  | .null => throw (JSError.typeError "Cannot read property of null")
  | .obj props => do
    let k ← toPropertyKey h key
    pure ((props.lookup k).getD .undefined)
  | .bare props => do
    let k ← toPropertyKey h key
    pure ((props.lookup k).getD .undefined)
  | b => do
    let k ← toPropertyKey h key
    h.getMember b k

/-- The abstract operation CreateListFromArrayLike, as `Function.prototype.apply`
uses it: no arguments for `undefined` and `null`, the elements of an `Array`,
a `TypeError` for a primitive. -/
def createListFromArrayLike (h : Host) : JSVal → Except JSError (List JSVal)
  | .undefined => pure []
  | .null => pure []
  | .array xs => pure xs
  | .bool _ => throw (JSError.typeError "CreateListFromArrayLike called on non-object")
  | .num _ => throw (JSError.typeError "CreateListFromArrayLike called on non-object")
  | .str _ => throw (JSError.typeError "CreateListFromArrayLike called on non-object")
  | .sym _ => throw (JSError.typeError "CreateListFromArrayLike called on non-object")
  | v => h.listFromArrayLike v

/-- The built-in `Function.prototype.apply`, called with `this` the value
`func` and the arguments `thisArg` and `argArray`: a `TypeError` when `func` is
not callable; otherwise `func` is called with `thisArg` as `this` on the
elements of `argArray`.  When `func` is `Function.prototype.apply` itself, that
call is again the built-in, with `thisArg` as its `this` and the first two
elements as its arguments; the host bounds the depth of such calls. -/
def functionApply (h : Host) : Nat → JSVal → JSVal → JSVal → Except JSError JSVal
  | _, .fn id, thisArg, argArray => do
    let xs ← createListFromArrayLike h argArray
    h.call id thisArg xs
  | 0, .functionPrototypeApply, _, _ =>
    throw (JSError.rangeError "Maximum call stack size exceeded")
  | depth + 1, .functionPrototypeApply, thisArg, argArray => do
    let xs ← createListFromArrayLike h argArray
    functionApply h depth thisArg (xs.getD 0 .undefined) (xs.getD 1 .undefined)
  | _, _, _, _ =>
    throw (JSError.typeError "Function.prototype.apply was called on a non-function")

/-- The call of the value `f` with a `this` value and a list of arguments: the
body of a function of the program, the built-in `Function.prototype.apply`, or
a `TypeError` when `f` is not a function. -/
def callValue (h : Host) (f this : JSVal) (args : List JSVal) : Except JSError JSVal :=
  match f with
  | .fn id => h.call id this args
  | .functionPrototypeApply =>
    functionApply h h.stackDepth this (args.getD 0 .undefined) (args.getD 1 .undefined)
  | _ => throw (JSError.typeError "apply is not a function")

/-- The method call `f.apply(thisArg, argArray)`: the member `apply` of `f` is
read, then called with `f` as `this` and the two arguments. -/
def invokeApply (h : Host) (f thisArg argArray : JSVal) : Except JSError JSVal := do
  let m ← getV h f (.str "apply")
  callValue h m f [thisArg, argArray]

/-- A guard function: from the values bound by the pattern to a result. -/
abbrev Guard := List JSVal → JSVal

/-- The type of `Patterns.match_no_throw(pattern, expr, guard)`, a function of
`./patterns/patterns`, which is not among the sources: it is a parameter of
the functions that call it.  As the spec has it, a mismatch is an ordinary
result ("returns nothing on mismatch, never signals via exception"), so the
matcher is a total function to a value, `null` or `undefined` standing for no
result. -/
abbrev Matcher := JSVal → JSVal → Guard → JSVal

/-- The default value of the parameter `guard`: the arrow function `() => true`. -/
def defaultGuard : Guard := fun _ => .bool true

/-- Modelled from the spec: `SpecialForms.list`, the list builder of
`./kernel/special_forms`, which is not among the sources; it builds the list
whose elements are its arguments, in order. -/
def SpecialForms.list (args : List JSVal) : JSVal :=
  .array args

namespace Kernel

/-- Source: `is_nil: function(x){ return x == null; }` -/
def is_nil (x : JSVal) : Except JSError JSVal :=
  pure (.bool (looseEqualsNull x))

/-- Source: `is_atom: function(x){ return typeof x === 'symbol'; }` -/
def is_atom (x : JSVal) : Except JSError JSVal :=
  pure (.bool (typeOf x == "symbol"))

/-- Source: `is_binary: function (x){ return typeof x === 'string' || x instanceof String; }` -/
def is_binary (x : JSVal) : Except JSError JSVal :=
  pure (.bool (typeOf x == "string" || instanceOfString x))

/-- Source: `is_boolean: function (x){ return typeof x === 'boolean' || x instanceof Boolean; }` -/
def is_boolean (x : JSVal) : Except JSError JSVal :=
  pure (.bool (typeOf x == "boolean" || instanceOfBoolean x))

/-- Source: `is_function: function(x, arity = -1){ return typeof x === 'function' || x instanceof Function; }`
(the `arity` parameter is not used by the body). -/
def is_function (x : JSVal) : Except JSError JSVal :=
  pure (.bool (typeOf x == "function" || instanceOfFunction x))

/-- Source: `is_float: function(x){ return x === +x && x !== (x|0); }` -/
def is_float (h : Host) (x : JSVal) : Except JSError JSVal := do
  let px ← toNumber h x
  if strictEqualsNum x px then
    let t ← bitOrZero h x
    pure (.bool (!strictEqualsNum x t))
  else
    pure (.bool false)

/-- Source: `is_integer: function(x){ return x === +x && x === (x|0); }` -/
def is_integer (h : Host) (x : JSVal) : Except JSError JSVal := do
  let px ← toNumber h x
  if strictEqualsNum x px then
    let t ← bitOrZero h x
    pure (.bool (strictEqualsNum x t))
  else
    pure (.bool false)

/-- Source: `is_list: function(x){ return x instanceof Array; }` -/
def is_list (x : JSVal) : Except JSError JSVal :=
  pure (.bool (instanceOfArray x))

/-- Source: `is_map: function(x){ return typeof x === 'object' || x instanceof Object; }` -/
def is_map (x : JSVal) : Except JSError JSVal :=
  pure (.bool (typeOf x == "object" || instanceOfObject x))

/-- Source: `is_number: function(x){ return Kernel.is_integer(x) || Kernel.is_float(x); }` -/
def is_number (h : Host) (x : JSVal) : Except JSError JSVal := do
  let i ← is_integer h x
  if toBoolean i then pure i else is_float h x

/-- Source: `is_tuple: function(x){ return x instanceof Tuple; }` -/
def is_tuple (x : JSVal) : Except JSError JSVal :=
  pure (.bool (instanceOfTuple x))

/-- Source: `is_pid: function(x){ return false; }` -/
def is_pid (_x : JSVal) : Except JSError JSVal :=
  pure (.bool false)

/-- Source: `is_port: function(x){ }`: the body is empty, the call yields `undefined`. -/
def is_port (_x : JSVal) : Except JSError JSVal :=
  pure .undefined

/-- Source: `is_reference: function(x){ }`: the body is empty, the call yields `undefined`. -/
def is_reference (_x : JSVal) : Except JSError JSVal :=
  pure .undefined

/-- Source: `is_bitstring: function(x){ return Kernel.is_binary(x) || x instanceof SpecialForms.bitstring; }` -/
def is_bitstring (x : JSVal) : Except JSError JSVal := do
  let b ← is_binary x
  if toBoolean b then pure b else pure (.bool (instanceOfBitstring x))

/-- Source: `rem: function(left, right){ return left % right; }` -/
def rem (h : Host) (left right : JSVal) : Except JSError JSVal := do
  let a ← toNumber h left
  let b ← toNumber h right
  pure (.num (a.rem b))

/-- Source: `div: function(left, right){ return left / right; }` -/
def div (h : Host) (left right : JSVal) : Except JSError JSVal := do
  let a ← toNumber h left
  let b ← toNumber h right
  pure (.num (a.div b))

/-- Source: `hd: function(list){ return list[0]; }`, for `list` an `Array` given by
its elements: the element at index `0`, or `undefined` when there is none. -/
def hd (list : List JSVal) : JSVal :=
  list.getD 0 .undefined

/-- Source: `tl: function(list){ return SpecialForms.list(...list.slice(1)); }`, for
`list` an `Array` given by its elements; `slice(1)` is a new array holding the
elements from index `1` on. -/
def tl (list : List JSVal) : JSVal :=
  SpecialForms.list (list.drop 1)

/-- Source: `match__qmark__: function(pattern, expr, guard = () => true){
  return Patterns.match_no_throw(pattern, expr, guard) != null; }`.
An omitted guard is `none`. -/
def match__qmark__ (match_no_throw : Matcher) (pattern expr : JSVal)
    (guard : Option Guard) : JSVal :=
  .bool (!looseEqualsNull (match_no_throw pattern expr (guard.getD defaultGuard)))

/-- Source: `__in__: function(left, right){ for(let x of right){
  if(Kernel.match__qmark__(left, x)){ return true; } } return false; }`,
for `right` an `Array` given by its elements. -/
def __in__ (match_no_throw : Matcher) (left : JSVal) : List JSVal → JSVal
  | [] => .bool false
  | x :: rest =>
    if toBoolean (match__qmark__ match_no_throw left x none) then .bool true
    else __in__ match_no_throw left rest

/-- Source: `apply: function(...args){ if(args.length === 3){ ... return
  mod[func].apply(null, func_args); }else if(args.length === 2){ ... return
  func.apply(null, func_args); }else{ throw new Error("Invalid number of
  arguments"); } }` -/
def apply (h : Host) (args : List JSVal) : Except JSError JSVal :=
  if args.length = 3 then
    let mod := args.getD 0 .undefined
    let func := args.getD 1 .undefined
    let func_args := args.getD 2 .undefined
    do
      let m ← getV h mod func
      invokeApply h m .null func_args
  else if args.length = 2 then
    let func := args.getD 0 .undefined
    let func_args := args.getD 1 .undefined
    invokeApply h func .null func_args
  else
    throw (JSError.error "Invalid number of arguments")

end Kernel

/-- The host never raises the error `e`: no member read, key conversion,
conversion of an array-like object or function body does. -/
def Host.neverRaises (h : Host) (e : JSError) : Prop :=
  (∀ v k, h.getMember v k ≠ .error e) ∧ (∀ v, h.toPropertyKey v ≠ .error e) ∧
  (∀ v, h.listFromArrayLike v ≠ .error e) ∧ (∀ id t xs, h.call id t xs ≠ .error e)

/-! ## Hosts and matchers used at concrete inputs -/

/-- A host for concrete inputs.  The functions `fn 1` and `fn 3` are both
`function(x){ return x; }` and `fn 2` is `function(){ return "own"; }`; every
other function returns `undefined`.  `fn 1` has the own member `apply` set to
`fn 2`; every other function, `Function.prototype.apply` included, inherits
`apply` from `Function.prototype`; every other member is `undefined`. -/
def sampleHost : Host where
  stringToNumber := fun _ => JSNum.nan
  objectToNumber := fun _ => pure JSNum.nan
  toPropertyKey := fun _ => pure (PropKey.str "")
  getMember := fun v k =>
    if k = PropKey.str "apply" then
      match v with
      | .fn 1 => pure (JSVal.fn 2)
      | .fn _ => pure JSVal.functionPrototypeApply
      | .functionPrototypeApply => pure JSVal.functionPrototypeApply
      | _ => pure JSVal.undefined
    else pure JSVal.undefined
  listFromArrayLike := fun _ => pure []
  call := fun id _ args =>
    if id = 1 ∨ id = 3 then pure (args.getD 0 JSVal.undefined)
    else if id = 2 then pure (JSVal.str "own")
    else pure JSVal.undefined
  stackDepth := 1000

/-- A matcher for concrete inputs: the pattern `undefined` matches any value,
the pattern `null` matches `null`, a boolean pattern matches the same boolean;
a match whose guard holds gives the list of the matched value, anything else
gives `null`. -/
def sampleMatcher : Matcher := fun pattern expr guard =>
  let fits : Bool :=
    match pattern, expr with
    | .undefined, _ => true
    | .null, .null => true
    | .bool a, .bool b => a == b
    | _, _ => false
  if fits && toBoolean (guard [expr]) then .array [expr] else .null

/-! ## Lemmas on numbers -/

namespace JSNum

theorem truncRat_intCast (i : ℤ) : truncRat (i : ℚ) = i := by
  unfold truncRat
  split <;> simp

theorem toInt32_intCast (i : ℤ) :
    toInt32 (fin (i : ℚ)) =
      if 2147483648 ≤ i % 4294967296 then i % 4294967296 - 4294967296
      else i % 4294967296 := by
  simp [toInt32, truncRat_intCast]

theorem toInt32_intCast_eq_iff (i : ℤ) :
    toInt32 (fin (i : ℚ)) = i ↔ -2147483648 ≤ i ∧ i < 2147483648 := by
  rw [toInt32_intCast]
  split <;> omega

theorem strictEq_fin (a b : ℚ) : strictEq (fin a) (fin b) = decide (a = b) := by
  simp [strictEq, toRat]

theorem truncRat_nonneg_bounds (q : ℚ) (hq : 0 ≤ q) :
    0 ≤ q - (truncRat q : ℚ) ∧ q - (truncRat q : ℚ) < 1 := by
  unfold truncRat
  rw [if_pos hq]
  have h1 := Int.floor_le q
  have h2 := Int.lt_floor_add_one q
  constructor <;> linarith

theorem truncRat_neg_bounds (q : ℚ) (hq : q < 0) :
    q - (truncRat q : ℚ) ≤ 0 ∧ -1 < q - (truncRat q : ℚ) := by
  unfold truncRat
  rw [if_neg (not_le.mpr hq)]
  have h1 := Int.le_ceil q
  have h2 := Int.ceil_lt_add_one q
  constructor <;> linarith

/-- The remainder `a - b * trunc(a / b)` of two integers is smaller than `b` in
absolute value and has the sign of `a`. -/
theorem trunc_rem_spec (a b : ℤ) (hb : b ≠ 0) :
    |a - b * truncRat ((a : ℚ) / b)| < |b| ∧
    (0 ≤ a → 0 ≤ a - b * truncRat ((a : ℚ) / b)) ∧
    (a ≤ 0 → a - b * truncRat ((a : ℚ) / b) ≤ 0) := by
  have hbQ : (b : ℚ) ≠ 0 := by exact_mod_cast hb
  set q : ℚ := (a : ℚ) / b with hqdef
  set t : ℤ := truncRat q with htdef
  have hab : (a : ℚ) = q * b := by
    rw [hqdef]; field_simp
  have hr : ((a - b * t : ℤ) : ℚ) = b * (q - t) := by
    push_cast; rw [hab]; ring
  have habs : |((a - b * t : ℤ) : ℚ)| < |(b : ℚ)| := by
    rw [hr, abs_mul]
    have hbpos : 0 < |(b : ℚ)| := abs_pos.mpr hbQ
    have hf : |q - (t : ℚ)| < 1 := by
      rcases le_or_lt 0 q with h0 | h0
      · have := truncRat_nonneg_bounds q h0
        rw [abs_lt]; constructor <;> linarith [this.1, this.2]
      · have := truncRat_neg_bounds q h0
        rw [abs_lt]; constructor <;> linarith [this.1, this.2]
    calc |(b : ℚ)| * |q - (t : ℚ)| < |(b : ℚ)| * 1 := by
          exact mul_lt_mul_of_pos_left hf hbpos
      _ = |(b : ℚ)| := mul_one _
  refine ⟨by exact_mod_cast habs, ?_, ?_⟩
  · intro ha
    have haQ : (0 : ℚ) ≤ a := by exact_mod_cast ha
    have goal : (0 : ℚ) ≤ ((a - b * t : ℤ) : ℚ) := by
      rw [hr]
      rcases lt_or_gt_of_ne hbQ with hneg | hpos
      · -- b < 0, so q ≤ 0
        have hq0 : q ≤ 0 := by
          rw [hqdef]; exact div_nonpos_of_nonneg_of_nonpos haQ hneg.le
        rcases lt_or_eq_of_le hq0 with hlt | heq
        · have := truncRat_neg_bounds q hlt
          exact mul_nonneg_of_nonpos_of_nonpos hneg.le this.1
        · have := truncRat_nonneg_bounds q (le_of_eq heq.symm)
          have ht0 : (t : ℚ) = 0 := by
            have h1 : (t : ℚ) ≤ 0 := by linarith [this.1]
            have h2 : (-1 : ℚ) < t := by linarith [this.2]
            have h1' : t ≤ 0 := by exact_mod_cast h1
            have h2' : -1 < t := by exact_mod_cast h2
            have : t = 0 := by omega
            exact_mod_cast this
          rw [heq, ht0]; simp
      · have hq0 : 0 ≤ q := by
          rw [hqdef]; exact div_nonneg haQ hpos.le
        have := truncRat_nonneg_bounds q hq0
        exact mul_nonneg hpos.le this.1
    exact_mod_cast goal
  · intro ha
    have haQ : (a : ℚ) ≤ 0 := by exact_mod_cast ha
    have goal : ((a - b * t : ℤ) : ℚ) ≤ 0 := by
      rw [hr]
      rcases lt_or_gt_of_ne hbQ with hneg | hpos
      · have hq0 : 0 ≤ q := by
          rw [hqdef]; exact div_nonneg_of_nonpos haQ hneg.le
        have := truncRat_nonneg_bounds q hq0
        exact mul_nonpos_of_nonpos_of_nonneg hneg.le this.1
      · have hq0 : q ≤ 0 := by
          rw [hqdef]; exact div_nonpos_of_nonpos_of_nonneg haQ hpos.le
        rcases lt_or_eq_of_le hq0 with hlt | heq
        · have := truncRat_neg_bounds q hlt
          exact mul_nonpos_of_nonneg_of_nonpos hpos.le this.1
        · have := truncRat_nonneg_bounds q (le_of_eq heq.symm)
          have ht0 : (t : ℚ) = 0 := by
            have h1 : (t : ℚ) ≤ 0 := by linarith [this.1]
            have h2 : (-1 : ℚ) < t := by linarith [this.2]
            have h1' : t ≤ 0 := by exact_mod_cast h1
            have h2' : -1 < t := by exact_mod_cast h2
            have : t = 0 := by omega
            exact_mod_cast this
          rw [heq, ht0]; simp
    exact_mod_cast goal

/-- On integers `a` and `b ≠ 0`, `a % b` is the integer `a - b * trunc(a / b)`
(as `-0` when it is zero and `a` is negative). -/
theorem rem_intCast (a b : ℤ) (hb : b ≠ 0) :
    rem (fin a) (fin b) = fin ((a - b * truncRat ((a : ℚ) / b) : ℤ) : ℚ) ∨
    (a - b * truncRat ((a : ℚ) / b) = 0 ∧ rem (fin a) (fin b) = negZero) := by
  have hbQ : (b : ℚ) ≠ 0 := by exact_mod_cast hb
  by_cases ha : (a : ℚ) = 0
  · left
    have h0 : truncRat (0 : ℚ) = 0 := by simp [truncRat]
    simp [rem, isFinite, isZero, toRat, hbQ, ha, h0]
  · by_cases hr : (a : ℚ) - b * (truncRat ((a : ℚ) / b) : ℚ) = 0
    · have hrZ : a - b * truncRat ((a : ℚ) / b) = 0 := by exact_mod_cast hr
      by_cases hneg : (a : ℚ) < 0
      · right
        refine ⟨hrZ, ?_⟩
        simp [rem, isFinite, isZero, toRat, hbQ, ha, hr, signedZero, isNeg, hneg]
      · left
        simp [rem, isFinite, isZero, toRat, hbQ, ha, hr, signedZero, isNeg, hneg]
    · left
      simp [rem, isFinite, isZero, toRat, hbQ, ha, hr]

theorem log_seven_halves : Int.log 2 |(7 / 2 : ℚ)| = 1 := by
  have h1 : |(7 / 2 : ℚ)| = 7 / 2 := abs_of_pos (by norm_num)
  rw [h1, Int.log_of_one_le_right 2 (by norm_num)]
  have h2 : ⌊(7 / 2 : ℚ)⌋₊ = 3 := by
    rw [Nat.floor_eq_iff (by norm_num)]
    norm_num
  rw [h2]
  have h3 : Nat.log 2 3 = 1 := by
    rw [Nat.log_eq_iff (by norm_num)]
    norm_num
  rw [h3]
  rfl

theorem roundHalfEven_intCast (i : ℤ) : roundHalfEven (i : ℚ) = i := by
  simp [roundHalfEven]

theorem roundDouble_seven_halves : roundDouble (7 / 2) = fin (7 / 2) := by
  have hq : (|(7 / 2 : ℚ)| / (1 / 2251799813685248)) = ((7881299347898368 : ℤ) : ℚ) := by
    rw [abs_of_pos (by norm_num)]
    norm_num
  have hm : roundHalfEven (|(7 / 2 : ℚ)| / (1 / 2251799813685248)) = 7881299347898368 := by
    rw [hq, roundHalfEven_intCast]
  unfold roundDouble
  simp only [log_seven_halves]
  norm_num
  rw [hm]
  norm_num

theorem div_seven_two : div (fin 7) (fin 2) = fin (7 / 2) := by
  simp [div, isFinite, isZero, toRat, roundDouble_seven_halves]

theorem rem_seven_two : rem (fin 7) (fin 2) = fin 1 := by
  have ht : truncRat (7 / 2 : ℚ) = 3 := by
    unfold truncRat
    rw [if_pos (by norm_num), Int.floor_eq_iff]
    norm_num
  simp [rem, isFinite, isZero, toRat, ht]
  norm_num

end JSNum

/-! ## Lemmas on the functions of `Kernel` -/

namespace Kernel

theorem is_integer_num_fin (h : Host) (q : ℚ) :
    is_integer h (.num (.fin q)) = .ok (.bool (decide (q = ((JSNum.fin q).toInt32 : ℚ)))) := by
  simp [is_integer, bitOrZero, toNumber, strictEqualsNum, JSNum.strictEq_fin, bind, Except.bind,
    pure, Except.pure]

theorem is_float_num_fin (h : Host) (q : ℚ) :
    is_float h (.num (.fin q)) = .ok (.bool (!decide (q = ((JSNum.fin q).toInt32 : ℚ)))) := by
  simp [is_float, bitOrZero, toNumber, strictEqualsNum, JSNum.strictEq_fin, bind, Except.bind,
    pure, Except.pure]

/-- On a number whose value is the integer `i`, `is_integer` answers whether
`i` lies in the signed 32-bit range, and `is_float` answers the opposite. -/
theorem is_integer_intCast (h : Host) (i : ℤ) :
    is_integer h (.num (.fin (i : ℚ)))
        = .ok (.bool (decide (-2147483648 ≤ i ∧ i < 2147483648))) ∧
    is_float h (.num (.fin (i : ℚ)))
        = .ok (.bool (!decide (-2147483648 ≤ i ∧ i < 2147483648))) := by
  have key : ((i : ℚ) = ((JSNum.fin (i : ℚ)).toInt32 : ℚ)) ↔
      (-2147483648 ≤ i ∧ i < 2147483648) := by
    rw [← JSNum.toInt32_intCast_eq_iff i]
    constructor
    · intro hq
      exact (Int.cast_injective hq).symm
    · intro hq
      exact congrArg _ hq.symm
  rw [is_integer_num_fin, is_float_num_fin]
  simp only [key]
  exact ⟨trivial, trivial⟩

/-- On a finite number with a non-zero fractional part `is_float` is true and
`is_integer` is false. -/
theorem is_float_of_fraction (h : Host) (q : ℚ) (hq : ∀ i : ℤ, q ≠ (i : ℚ)) :
    is_float h (.num (.fin q)) = .ok (.bool true) ∧
    is_integer h (.num (.fin q)) = .ok (.bool false) := by
  rw [is_integer_num_fin, is_float_num_fin]
  simp [hq]

/-- The predicates that do not convert their argument return a boolean on
every input. -/
theorem type_predicates_boolean (x : JSVal) :
    (∃ b, is_nil x = .ok (.bool b)) ∧ (∃ b, is_atom x = .ok (.bool b)) ∧
    (∃ b, is_binary x = .ok (.bool b)) ∧ (∃ b, is_boolean x = .ok (.bool b)) ∧
    (∃ b, is_function x = .ok (.bool b)) ∧ (∃ b, is_list x = .ok (.bool b)) ∧
    (∃ b, is_map x = .ok (.bool b)) ∧ (∃ b, is_tuple x = .ok (.bool b)) ∧
    (∃ b, is_pid x = .ok (.bool b)) ∧ (∃ b, is_bitstring x = .ok (.bool b)) := by
  refine ⟨⟨_, rfl⟩, ⟨_, rfl⟩, ⟨_, rfl⟩, ⟨_, rfl⟩, ⟨_, rfl⟩, ⟨_, rfl⟩, ⟨_, rfl⟩, ⟨_, rfl⟩,
    ⟨_, rfl⟩, ?_⟩
  unfold is_bitstring is_binary
  cases hb : (typeOf x == "string" || instanceOfString x) <;>
    simp [bind, Except.bind, pure, Except.pure, toBoolean, hb]

theorem is_number_ne_true (h : Host) (x : JSVal)
    (hx : ∀ n, strictEqualsNum x n = false) : is_number h x ≠ .ok (.bool true) := by
  unfold is_number is_integer is_float
  cases hn : toNumber h x with
  | error e => simp [bind, Except.bind]
  | ok px => simp [bind, Except.bind, pure, Except.pure, hx, toBoolean]

/-- Only a number satisfies `is_number`. -/
theorem is_number_true_is_num (h : Host) (x : JSVal)
    (hx : is_number h x = .ok (.bool true)) : ∃ n, x = .num n := by
  cases x with
  | num n => exact ⟨n, rfl⟩
  | _ => exact absurd hx (is_number_ne_true h _ (fun _ => rfl))

/-- Without `is_map`, the type predicates are exclusive: no value satisfies two
of `is_atom`, `is_boolean`, `is_number`, `is_binary`, `is_tuple`, `is_list`. -/
theorem type_predicates_exclusive (h : Host) (x : JSVal) :
    ([is_atom x, is_boolean x, is_number h x, is_binary x, is_tuple x, is_list x].filter
      (fun r => match r with
        | .ok (.bool true) => true
        | _ => false)).length ≤ 1 := by
  by_cases hn : is_number h x = .ok (.bool true)
  · obtain ⟨n, rfl⟩ := is_number_true_is_num h x hn
    simp [hn, is_atom, is_boolean, is_binary, is_tuple, is_list, typeOf, instanceOfString,
      instanceOfBoolean, instanceOfTuple, instanceOfArray, pure, Except.pure, List.filter]
  · have hf : (match is_number h x with
        | .ok (.bool true) => true
        | _ => false) = false := by
      split
      · rename_i heq
        exact absurd heq hn
      · rfl
    cases x <;>
      simp [List.filter, hf, is_atom, is_boolean, is_binary, is_tuple, is_list, typeOf,
        instanceOfString, instanceOfBoolean, instanceOfTuple, instanceOfArray, pure, Except.pure]

/-- On integers `a` and `b ≠ 0`, `rem(a, b)` is an integer `r` with `|r| < |b|`
and the sign of `a` (or zero), and `a = trunc(a / b) * b + r`. -/
theorem rem_of_integers (h : Host) (a b : ℤ) (hb : b ≠ 0) :
    ∃ r : ℤ,
      (rem h (.num (.fin a)) (.num (.fin b)) = .ok (.num (.fin r)) ∨
        (r = 0 ∧ rem h (.num (.fin a)) (.num (.fin b)) = .ok (.num .negZero))) ∧
      |r| < |b| ∧ (0 ≤ a → 0 ≤ r) ∧ (a ≤ 0 → r ≤ 0) ∧
      a = JSNum.truncRat ((a : ℚ) / b) * b + r := by
  refine ⟨a - b * JSNum.truncRat ((a : ℚ) / b), ?_, (JSNum.trunc_rem_spec a b hb).1,
    (JSNum.trunc_rem_spec a b hb).2.1, (JSNum.trunc_rem_spec a b hb).2.2, by ring⟩
  rcases JSNum.rem_intCast a b hb with hr | ⟨hz, hr⟩
  · left
    simp [rem, toNumber, bind, Except.bind, pure, Except.pure, hr]
  · right
    refine ⟨hz, ?_⟩
    simp [rem, toNumber, bind, Except.bind, pure, Except.pure, hr]

theorem match__qmark___eq (m : Matcher) (p e : JSVal) (g : Option Guard) :
    match__qmark__ m p e g = .bool true ∨ match__qmark__ m p e g = .bool false := by
  unfold match__qmark__
  cases looseEqualsNull (m p e (g.getD defaultGuard)) <;> simp

theorem looseEqualsNull_iff (v : JSVal) :
    looseEqualsNull v = true ↔ (v = .null ∨ v = .undefined) := by
  cases v <;> simp [looseEqualsNull]

theorem bind_ne_error {α β : Type} (x : Except JSError α) (f : α → Except JSError β)
    (e : JSError) (hx : x ≠ .error e) (hf : ∀ a, f a ≠ .error e) : (x >>= f) ≠ .error e := by
  cases x with
  | error e2 =>
    intro hb
    have he : e2 = e := Except.error.inj hb
    exact hx (congrArg Except.error he)
  | ok a => exact hf a

theorem toPropertyKey_ne_error (h : Host) (msg : String)
    (hq : h.neverRaises (.error msg)) (v : JSVal) :
    toPropertyKey h v ≠ .error (.error msg) := by
  cases v <;> first
    | exact hq.2.1 _
    | (intro hc; exact Except.noConfusion hc)

theorem getV_ne_error (h : Host) (msg : String) (hq : h.neverRaises (.error msg))
    (base key : JSVal) : getV h base key ≠ .error (.error msg) := by
  have hk := toPropertyKey_ne_error h msg hq key
  cases base <;> first
    | (intro hc; exact JSError.noConfusion (Except.error.inj hc))
    | exact bind_ne_error _ _ _ hk (fun _ hc => Except.noConfusion hc)
    | exact bind_ne_error _ _ _ hk (fun _ => hq.1 _ _)

theorem createListFromArrayLike_ne_error (h : Host) (msg : String)
    (hq : h.neverRaises (.error msg)) (v : JSVal) :
    createListFromArrayLike h v ≠ .error (.error msg) := by
  cases v <;> first
    | exact hq.2.2.1 _
    | (intro hc; exact Except.noConfusion hc)
    | (intro hc; exact JSError.noConfusion (Except.error.inj hc))

/-- On a function of the program, `Function.prototype.apply` calls its body on
the elements of the argument array, whatever the depth of calls left. -/
theorem functionApply_fn (h : Host) (depth id : Nat) (thisArg argArray : JSVal) :
    functionApply h depth (.fn id) thisArg argArray
      = (createListFromArrayLike h argArray >>= fun xs => h.call id thisArg xs) := by
  cases depth <;> rfl

theorem functionApply_ne_error (h : Host) (msg : String) (hq : h.neverRaises (.error msg))
    (depth : Nat) : ∀ func thisArg argArray : JSVal,
      functionApply h depth func thisArg argArray ≠ .error (.error msg) := by
  induction depth with
  | zero =>
    intro func thisArg argArray
    cases func <;> first
      | (rw [functionApply_fn]
         exact bind_ne_error _ _ _ (createListFromArrayLike_ne_error h msg hq _)
           (fun _ => hq.2.2.2 _ _ _))
      | (intro hc; exact JSError.noConfusion (Except.error.inj hc))
  | succ n ih =>
    intro func thisArg argArray
    cases func <;> first
      | (rw [functionApply_fn]
         exact bind_ne_error _ _ _ (createListFromArrayLike_ne_error h msg hq _)
           (fun _ => hq.2.2.2 _ _ _))
      | exact bind_ne_error _ _ _ (createListFromArrayLike_ne_error h msg hq _)
           (fun _ => ih _ _ _)
      | (intro hc; exact JSError.noConfusion (Except.error.inj hc))

theorem invokeApply_ne_error (h : Host) (msg : String) (hq : h.neverRaises (.error msg))
    (f thisArg argArray : JSVal) :
    invokeApply h f thisArg argArray ≠ .error (.error msg) := by
  refine bind_ne_error _ _ _ (getV_ne_error h msg hq _ _) ?_
  intro m
  cases m <;> first
    | exact hq.2.2.2 _ _ _
    | exact functionApply_ne_error h msg hq _ _ _ _
    | (intro hc; exact JSError.noConfusion (Except.error.inj hc))

/-- A call with two arguments is the method call `func.apply(null, func_args)`. -/
theorem apply_two (h : Host) (func func_args : JSVal) :
    apply h [func, func_args] = invokeApply h func .null func_args := rfl

/-- A call with three arguments is the method call
`mod[func].apply(null, func_args)`. -/
theorem apply_three (h : Host) (mod func func_args : JSVal) :
    apply h [mod, func, func_args]
      = (getV h mod func >>= fun m => invokeApply h m .null func_args) := rfl

/-- The method call `f.apply(null, xs)` on a function of the program that
inherits `apply` from `Function.prototype` calls the body of `f` on `xs`. -/
theorem invokeApply_inherited (h : Host) (id : Nat) (xs : List JSVal)
    (hm : h.getMember (.fn id) (PropKey.str "apply") = .ok .functionPrototypeApply) :
    invokeApply h (.fn id) .null (.array xs) = h.call id .null xs := by
  simp [invokeApply, getV, toPropertyKey, hm, callValue, functionApply_fn,
    createListFromArrayLike, bind, Except.bind, pure, Except.pure]

theorem sampleHost_neverRaises :
    sampleHost.neverRaises (.error "Invalid number of arguments") := by
  refine ⟨?_, ?_, ?_, ?_⟩
  · intro v k hc
    simp only [sampleHost] at hc
    split at hc
    · split at hc <;> exact Except.noConfusion hc
    · exact Except.noConfusion hc
  · intro v hc
    exact Except.noConfusion hc
  · intro v hc
    exact Except.noConfusion hc
  · intro id t xs hc
    simp only [sampleHost] at hc
    split at hc
    · exact Except.noConfusion hc
    · split at hc <;> exact Except.noConfusion hc

/-! ## The claims -/

/-- C1: `match__qmark__(p, e, g)` is `true` exactly when
`Patterns.match_no_throw(p, e, g)` gives a value that is neither `null` nor
`undefined`, `false` exactly when it gives `null` or `undefined`, and it is
always one of the two booleans. -/
theorem match__qmark___iff_result (m : Matcher) (p e : JSVal) (g : Guard) :
    (match__qmark__ m p e (some g) = .bool true ↔ (m p e g ≠ .null ∧ m p e g ≠ .undefined)) ∧
    (match__qmark__ m p e (some g) = .bool false ↔ (m p e g = .null ∨ m p e g = .undefined)) ∧
    (match__qmark__ m p e (some g) = .bool true ∨ match__qmark__ m p e (some g) = .bool false) := by
  have hl := looseEqualsNull_iff (m p e g)
  refine ⟨?_, ?_, match__qmark___eq m p e (some g)⟩
  · cases hv : looseEqualsNull (m p e g)
    · have hn : ¬ (m p e g = .null ∨ m p e g = .undefined) := by
        intro hc
        rw [hl.mpr hc] at hv
        exact Bool.noConfusion hv
      simp only [match__qmark__, Option.getD_some, hv, Bool.not_false, true_iff]
      exact ⟨fun hc => hn (Or.inl hc), fun hc => hn (Or.inr hc)⟩
    · have hc := hl.mp hv
      simp only [match__qmark__, Option.getD_some, hv, Bool.not_true, JSVal.bool.injEq]
      constructor
      · intro hf
        exact Bool.noConfusion hf
      · rintro ⟨h1, h2⟩
        rcases hc with hc | hc
        · exact absurd hc h1
        · exact absurd hc h2
  · cases hv : looseEqualsNull (m p e g)
    · have hn : ¬ (m p e g = .null ∨ m p e g = .undefined) := by
        intro hc
        rw [hl.mpr hc] at hv
        exact Bool.noConfusion hv
      simp only [match__qmark__, Option.getD_some, hv, Bool.not_false, JSVal.bool.injEq]
      constructor
      · intro hf
        exact Bool.noConfusion hf
      · intro hc
        exact absurd hc hn
    · simp only [match__qmark__, Option.getD_some, hv, Bool.not_true, true_iff]
      exact hl.mp hv

/-- C2: `__in__(left, right)` is `true` exactly when some element `x` of
`right` has `match__qmark__(left, x)` true (the guard omitted); it is `false`
on the empty sequence. -/
theorem __in___iff_exists (m : Matcher) (left : JSVal) (right : List JSVal) :
    (__in__ m left right = .bool true ↔
      ∃ x ∈ right, match__qmark__ m left x none = .bool true) ∧
    __in__ m left [] = .bool false := by
  refine ⟨?_, rfl⟩
  induction right with
  | nil => simp [__in__]
  | cons y ys ih =>
    rcases match__qmark___eq m left y none with hy | hy
    · simp [__in__, hy, toBoolean]
    · simp [__in__, hy, toBoolean, ih]

/-- C3: `is_integer(x)` and `is_float(x)` are never both true, and
`is_number(x)` is true exactly when exactly one of them is. -/
theorem is_integer_is_float_exclusive (h : Host) (x : JSVal) :
    ¬ (is_integer h x = .ok (.bool true) ∧ is_float h x = .ok (.bool true)) ∧
    (is_number h x = .ok (.bool true) ↔
      Xor' (is_integer h x = .ok (.bool true)) (is_float h x = .ok (.bool true))) := by
  unfold is_number is_integer is_float bitOrZero
  cases hn : toNumber h x with
  | error e => simp [Xor', bind, Except.bind]
  | ok px =>
    cases hs : strictEqualsNum x px <;>
      cases ht : strictEqualsNum x (JSNum.fin (px.toInt32 : ℚ)) <;>
      simp [Xor', bind, Except.bind, pure, Except.pure, hs, ht, toBoolean, hn]

/-- C4: the numbers `2^31` and `-2^31 - 1` are mathematical integers, yet
`is_integer` is false and `is_float` is true on them: `x|0` wraps them to
another number. -/
theorem is_integer_false_beyond_int32 (h : Host) :
    is_integer h (.num (.fin 2147483648)) = .ok (.bool false) ∧
    is_float h (.num (.fin 2147483648)) = .ok (.bool true) ∧
    is_integer h (.num (.fin (-2147483649))) = .ok (.bool false) ∧
    is_float h (.num (.fin (-2147483649))) = .ok (.bool true) := by
  have h1 := is_integer_intCast h 2147483648
  have h2 := is_integer_intCast h (-2147483649)
  norm_num at h1 h2
  exact ⟨h1.1, h1.2, h2.1, h2.2⟩

/-- C5: `is_port` and `is_reference` return `undefined`, not a boolean, on
every input; `is_integer`, `is_float` and `is_number` raise a `TypeError` on
every symbol (atom). -/
theorem is_port_is_reference_undefined (h : Host) (x : JSVal) (i : Nat) :
    is_port x = .ok .undefined ∧ is_reference x = .ok .undefined ∧
    is_integer h (.sym i)
      = .error (.typeError "Cannot convert a Symbol value to a number") ∧
    is_float h (.sym i)
      = .error (.typeError "Cannot convert a Symbol value to a number") ∧
    is_number h (.sym i)
      = .error (.typeError "Cannot convert a Symbol value to a number") := by
  refine ⟨rfl, rfl, rfl, rfl, rfl⟩

/-- C6: the empty list satisfies both `is_list` and `is_map`, the empty tuple
both `is_tuple` and `is_map`, a `String` object both `is_binary` and `is_map`,
and `null` satisfies `is_map`. -/
theorem is_map_of_list_tuple_null :
    is_list (.array []) = .ok (.bool true) ∧ is_map (.array []) = .ok (.bool true) ∧
    is_tuple (.tuple []) = .ok (.bool true) ∧ is_map (.tuple []) = .ok (.bool true) ∧
    is_binary (.strObj "a") = .ok (.bool true) ∧ is_map (.strObj "a") = .ok (.bool true) ∧
    is_nil .null = .ok (.bool true) ∧ is_map .null = .ok (.bool true) := by
  refine ⟨rfl, rfl, rfl, rfl, rfl, rfl, rfl, rfl⟩

/-- C7: for a non-empty list `l`, `hd(l)` is its first element, `tl(l)` is
the list of the remaining elements in order, of length `length(l) - 1`, and
`hd(l)` prepended to `tl(l)` is `l`. -/
theorem hd_tl_decompose (l : List JSVal) (hl : l ≠ []) :
    hd l = l.head hl ∧ tl l = .array l.tail ∧ l.tail.length = l.length - 1 ∧
    ∃ t, tl l = .array t ∧ hd l :: t = l := by
  cases l with
  | nil => exact absurd rfl hl
  | cons a as =>
    refine ⟨rfl, rfl, by simp, as, rfl, rfl⟩

theorem hd_tl_decompose_witness :
    ([JSVal.num (.fin 1), JSVal.str "b", JSVal.null] : List JSVal) ≠ [] ∧
    hd [JSVal.num (.fin 1), JSVal.str "b", JSVal.null] = JSVal.num (.fin 1) ∧
    tl [JSVal.num (.fin 1), JSVal.str "b", JSVal.null] = .array [JSVal.str "b", JSVal.null] :=
  ⟨by simp,
   (hd_tl_decompose [JSVal.num (.fin 1), JSVal.str "b", JSVal.null] (by simp)).1,
   (hd_tl_decompose [JSVal.num (.fin 1), JSVal.str "b", JSVal.null] (by simp)).2.1⟩

/-- C8: `match__qmark__(p, e)` without a guard equals `match__qmark__(p, e, g)`
for every guard `g` that returns `true` on every input. -/
theorem match__qmark___default_guard (m : Matcher) (p e : JSVal) (g : Guard)
    (hg : ∀ args, g args = .bool true) :
    match__qmark__ m p e none = match__qmark__ m p e (some g) := by
  have : g = defaultGuard := funext hg
  simp [match__qmark__, this]

theorem match__qmark___default_guard_witness :
    (∀ args, (fun _ => JSVal.bool true : Guard) args = .bool true) ∧
    match__qmark__ sampleMatcher .undefined (.str "a") none
      = match__qmark__ sampleMatcher .undefined (.str "a") (some (fun _ => JSVal.bool true)) :=
  ⟨fun _ => rfl,
   match__qmark___default_guard sampleMatcher .undefined (.str "a") (fun _ => JSVal.bool true)
     (fun _ => rfl)⟩

/-- C9: `div(7, 2)` is `3.5`, not the truncated quotient `3`, while
`rem(7, 2)` is `1`; so `div(7, 2) * 2 + rem(7, 2)` is `8`, not `7`. -/
theorem div_seven_two_not_integer (h : Host) :
    div h (.num (.fin 7)) (.num (.fin 2)) = .ok (.num (.fin (7 / 2))) ∧
    rem h (.num (.fin 7)) (.num (.fin 2)) = .ok (.num (.fin 1)) ∧
    (∀ i : ℤ, (7 / 2 : ℚ) ≠ (i : ℚ)) ∧
    (7 / 2 : ℚ) * 2 + 1 ≠ 7 := by
  refine ⟨?_, ?_, ?_, by norm_num⟩
  · simp [div, toNumber, bind, Except.bind, pure, Except.pure, JSNum.div_seven_two]
  · simp [rem, toNumber, bind, Except.bind, pure, Except.pure, JSNum.rem_seven_two]
  · intro i hi
    have h2 : (7 : ℚ) = ((2 * i : ℤ) : ℚ) := by
      push_cast
      linarith
    have h3 : (7 : ℤ) = 2 * i := by exact_mod_cast h2
    omega

/-- C10, as stated, fails: for the function `f` with `f(x) = x` whose own
member `apply` returns "own", `Kernel.apply(f, ["a"])` returns "own", which is
not the result "a" of applying `f` to the elements of `["a"]`. -/
theorem apply_own_member_not_function_result :
    apply sampleHost [.fn 1, .array [.str "a"]] = .ok (.str "own") ∧
    sampleHost.call 1 .null [.str "a"] = .ok (.str "a") ∧
    apply sampleHost [.fn 1, .array [.str "a"]] ≠ sampleHost.call 1 .null [.str "a"] := by
  have h1 : apply sampleHost [.fn 1, .array [.str "a"]] = .ok (.str "own") := rfl
  have h2 : sampleHost.call 1 .null [.str "a"] = .ok (.str "a") := rfl
  refine ⟨h1, h2, ?_⟩
  rw [h1, h2]
  intro hc
  have hs : "own" = "a" := JSVal.str.inj (Except.ok.inj hc)
  exact absurd hs (by decide)

/-- C10, amended: a call of `Kernel.apply` with a number of arguments other
than 2 or 3 raises the error "Invalid number of arguments", and a call with 2
or 3 arguments raises it only when the host does (a member read, a conversion
or the function called).  A call with `(func, func_args)` has the outcome of
the method call `func.apply(null, func_args)`, and a call with
`(mod, func, func_args)` that of `mod[func].apply(null, func_args)`; when the
function so called is a function that inherits `apply` from
`Function.prototype` and `func_args` is a list, the outcome is that of the
function applied to the elements of `func_args`. -/
theorem apply_outcome (h : Host) :
    (∀ args : List JSVal, args.length ≠ 2 → args.length ≠ 3 →
      apply h args = .error (.error "Invalid number of arguments")) ∧
    (h.neverRaises (.error "Invalid number of arguments") →
      ∀ args : List JSVal,
        (apply h args = .error (.error "Invalid number of arguments") ↔
          (args.length ≠ 2 ∧ args.length ≠ 3))) ∧
    (∀ func func_args : JSVal,
      apply h [func, func_args] = invokeApply h func .null func_args) ∧
    (∀ mod func func_args : JSVal,
      apply h [mod, func, func_args]
        = (getV h mod func >>= fun m => invokeApply h m .null func_args)) ∧
    (∀ (id : Nat) (xs : List JSVal),
      h.getMember (.fn id) (PropKey.str "apply") = .ok .functionPrototypeApply →
      apply h [.fn id, .array xs] = h.call id .null xs) ∧
    (∀ (mod func : JSVal) (id : Nat) (xs : List JSVal),
      getV h mod func = .ok (.fn id) →
      h.getMember (.fn id) (PropKey.str "apply") = .ok .functionPrototypeApply →
      apply h [mod, func, .array xs] = h.call id .null xs) := by
  have hlen : ∀ args : List JSVal, args.length ≠ 2 → args.length ≠ 3 →
      apply h args = .error (.error "Invalid number of arguments") := by
    intro args h2 h3
    simp [apply, h2, h3]
    rfl
  refine ⟨hlen, ?_, apply_two h, apply_three h, ?_, ?_⟩
  · intro hq args
    constructor
    · intro hraise
      by_contra hn
      have hcases : args.length = 2 ∨ args.length = 3 := by
        by_contra hc
        exact hn ⟨fun h2 => hc (Or.inl h2), fun h3 => hc (Or.inr h3)⟩
      rcases hcases with h2 | h3
      · match args, h2 with
        | [func, func_args], _ =>
          exact invokeApply_ne_error h _ hq func .null func_args hraise
      · match args, h3 with
        | [mod, func, func_args], _ =>
          rw [apply_three] at hraise
          exact bind_ne_error _ _ _ (getV_ne_error h _ hq mod func)
            (fun m => invokeApply_ne_error h _ hq m .null func_args) hraise
    · rintro ⟨h2, h3⟩
      exact hlen args h2 h3
  · intro id xs hm
    rw [apply_two]
    exact invokeApply_inherited h id xs hm
  · intro mod func id xs hget hm
    rw [apply_three, hget]
    exact invokeApply_inherited h id xs hm

/-- C10, amended, on `sampleHost`: no argument raises the error; the inherited
`apply` of `fn 3` applies `fn 3`, directly and as the member `id` of a module. -/
theorem apply_outcome_witness :
    apply sampleHost [] = .error (.error "Invalid number of arguments") ∧
    sampleHost.neverRaises (.error "Invalid number of arguments") ∧
    (apply sampleHost [.fn 1, .array [.str "a"]]
        = .error (.error "Invalid number of arguments") ↔
      (([.fn 1, .array [.str "a"]] : List JSVal).length ≠ 2 ∧
       ([.fn 1, .array [.str "a"]] : List JSVal).length ≠ 3)) ∧
    apply sampleHost [.fn 3, .array [.str "a"]] = .ok (.str "a") ∧
    apply sampleHost [.obj [(PropKey.str "id", .fn 3)], .str "id", .array [.str "a"]]
      = .ok (.str "a") :=
  ⟨(apply_outcome sampleHost).1 [] (by decide) (by decide),
   sampleHost_neverRaises,
   (apply_outcome sampleHost).2.1 sampleHost_neverRaises [.fn 1, .array [.str "a"]],
   (apply_outcome sampleHost).2.2.2.2.1 3 [.str "a"] rfl,
   (apply_outcome sampleHost).2.2.2.2.2 (.obj [(PropKey.str "id", .fn 3)]) (.str "id") 3
     [.str "a"] rfl rfl⟩

end Kernel

end ElixirScript
